import Mathlib

/-!
Verification of the management-ingress core against its source:
- the Lua/OpenResty request-time auth gate (token extraction, identity
  exchange, policy enforcement, startup error-page loading);
- the Go certificate controller (syncSecret, getPemCertificate,
  checkSSLChainIssues, checkMissingSecrets in backend_ssl.go).

External collaborators (HTTP transport, cjson decoding results, the secret
lister, the ssl helper package) are modelled as explicit environments so
the control flow of the embedded functions mirrors the source line by line.
-/

set_option autoImplicit false

/-! ## Lua auth gate: token extraction -/

/-- Lua's character class %s (C isspace): space, \t, \n, \v, \f, \r. -/
def isLuaSpace (c : Char) : Bool :=
  c = ' ' || c = '\t' || c = '\n' || c = '\x0B' || c = '\x0C' || c = '\r'

/-- Matching the tail of the Lua pattern "Bearer%s+(.+)" once the literal
"Bearer" has been consumed: a greedy run of whitespace (at least one), then
a capture of at least one character running to the end of the subject.
When everything after the whitespace run is empty, greedy backtracking
gives back one whitespace character to the capture. -/
def bearerCapture (rest : List Char) : Option String :=
  let w := rest.takeWhile isLuaSpace
  let r := rest.dropWhile isLuaSpace
  if w.isEmpty then none
  else if r.isEmpty then
    if 2 ≤ w.length then some (String.mk (w.drop (w.length - 1))) else none
  else some (String.mk r)

/-- Attempt the pattern "Bearer%s+(.+)" at the head of the character list. -/
def bearerAt : List Char → Option String
  | 'B' :: 'e' :: 'a' :: 'r' :: 'e' :: 'r' :: rest => bearerCapture rest
  | _ => none

/-- Unanchored scan: Lua string.find tries each start position left to
right and returns the first match. -/
def bearerFind : List Char → Option String
  | [] => none
  | c :: rest =>
    match bearerAt (c :: rest) with
    | some t => some t
    | none => bearerFind rest

/-- string.find(auth_header, "Bearer%s+(.+)"): the captured token, if the
pattern matches anywhere in the header value. -/
def bearerMatch (s : String) : Option String :=
  bearerFind s.data

example : bearerMatch "Bearer abc" = some "abc" := by decide
example : bearerMatch "Basic abc" = none := by decide
example : bearerMatch "Bearer" = none := by decide
example : bearerMatch "xBearer  y z" = some "y z" := by decide

/-- Request-scoped nginx state read by the gate: the Authorization header
(ngx.var.http_Authorization, nil when absent) and the cookie jar
(resty.cookie get, nil when the cookie is absent). -/
structure Request where
  authHeader : Option String
  cookies : String → Option String

inductive SimpleOutcome where
  | exit401
  | pass
deriving DecidableEq, Repr

/-- Observable result of validate_id_token_or_exit: the token variable at
the end of the function, whether the cookie jar was consulted, the
Authorization header synthesized for upstream (if any), and the outcome. -/
structure IdResult where
  token : Option String
  cookieConsulted : Bool
  headerSet : Option String
  outcome : SimpleOutcome
deriving DecidableEq, Repr

/-- Embeds validate_id_token_or_exit (part_000 lines 76-103): header
branch extracts via the Bearer pattern and never touches the cookie;
cookie branch reads cfc-acs-info-cookie and, when found, synthesizes
an Authorization header; a nil token exits 401. -/
def validate_id_token_or_exit (req : Request) : IdResult :=
  match req.authHeader with
  | some h =>
    let token := bearerMatch h
    { token := token, cookieConsulted := false, headerSet := none,
      outcome := match token with | none => .exit401 | some _ => .pass }
  | none =>
    let token := req.cookies "cfc-acs-info-cookie"
    { token := token, cookieConsulted := true,
      headerSet := token.map (fun t => "Bearer " ++ t),
      outcome := match token with | none => .exit401 | some _ => .pass }

/-! ## Lua auth gate: identity exchange (validate_access_token_or_exit) -/

/-- Result of running cjson.decode on a body string and indexing one field:
cjson.decode (the non-safe variant required at the top of the file) raises
a Lua error on malformed input, as does indexing a non-table decode result;
otherwise the field lookup yields the field's string value or nil. -/
inductive DecodeResult where
  | err
  | obj (field : Option String)
deriving DecidableEq, Repr

/-- Outbound HTTP environment for one validator call: resp is none when
httpc:request_uri returns no response (transport failure), otherwise the
response body (none models a nil body). decode gives the result of
cjson.decode plus the single field access performed on it. -/
structure HttpEnv where
  resp : Option (Option String)
  decode : String → DecodeResult

inductive AccessOutcome where
  | exit401
  | luaError
  | ret (sub : Option String)
deriving DecidableEq, Repr

structure AccessResult where
  token : Option String
  cookieConsulted : Bool
  headerSet : Option String
  networkCalled : Bool
  outcome : AccessOutcome
deriving DecidableEq, Repr

/-- The outcome of the tail of validate_access_token_or_exit after token
extraction (part_000 lines 129-156): nil token exits 401; transport
failure exits 401; empty or nil body exits 401; then cjson.decode(x).sub
is returned as-is — note the source has no check that sub is present, and
a malformed body makes cjson.decode raise. -/
def accessOutcomeOf (env : HttpEnv) (token : Option String) : AccessOutcome :=
  match token with
  | none => .exit401
  | some _ =>
    match env.resp with
    | none => .exit401
    | some none => .exit401
    | some (some x) =>
      if x = "" then .exit401
      else
        match env.decode x with
        | .err => .luaError
        | .obj sub => .ret sub

/-- Packs the tail of validate_access_token_or_exit into its observable
result; the network is reached exactly when a token was extracted. -/
def accessFinish (env : HttpEnv) (cookieConsulted : Bool) (headerSet : Option String)
    (token : Option String) : AccessResult :=
  { token := token, cookieConsulted := cookieConsulted, headerSet := headerSet,
    networkCalled := token.isSome, outcome := accessOutcomeOf env token }

/-- Embeds validate_access_token_or_exit (part_000 lines 105-157): same
extraction as the id validator but against cfc-acs-auth-cookie, then the
userInfo exchange. -/
def validate_access_token_or_exit (req : Request) (env : HttpEnv) : AccessResult :=
  match req.authHeader with
  | some h => accessFinish env false none (bearerMatch h)
  | none =>
    let token := req.cookies "cfc-acs-auth-cookie"
    accessFinish env true (token.map (fun t => "Bearer " ++ t)) token

/-! ## Lua auth gate: policy enforcement (validate_policy_or_exit) -/

inductive PolicyOutcome where
  | exit403
  | luaError
  | permitted
deriving DecidableEq, Repr

structure PolicyResult where
  networkCalled : Bool
  sentAuth : Option String
  outcome : PolicyOutcome
deriving DecidableEq, Repr

/-- The outcome of the tail of validate_policy_or_exit once an auth_token
string is in hand (part_000 lines 190-237): transport failure 403,
empty/nil body 403, cjson.decode(x).decision compared against the literal
"Permit"; only an exact match proceeds; a malformed body makes
cjson.decode raise. -/
def policyOutcomeOf (env : HttpEnv) : PolicyOutcome :=
  match env.resp with
  | none => .exit403
  | some none => .exit403
  | some (some x) =>
    if x = "" then .exit403
    else
      match env.decode x with
      | .err => .luaError
      | .obj decision =>
        if decision = some "Permit" then .permitted else .exit403

/-- The PDP call with its observable result. -/
def policyCall (env : HttpEnv) (auth_token : String) : PolicyResult :=
  { networkCalled := true, sentAuth := some auth_token, outcome := policyOutcomeOf env }

/-- Embeds validate_policy_or_exit (part_000 lines 159-238): reads the
Authorization header and the cfc-access-token-cookie; both absent exits
403 with no network call; an absent header is replaced by
"bearer " .. cookie-token; the header, when present, is used verbatim.
(The second auth_token nil check in the source, lines 185-188, is
unreachable and has no effect.) -/
def validate_policy_or_exit (req : Request) (env : HttpEnv) : PolicyResult :=
  match req.authHeader, req.cookies "cfc-access-token-cookie" with
  | none, none => { networkCalled := false, sentAuth := none, outcome := .exit403 }
  | some a, _ => policyCall env a
  | none, some t => policyCall env ("bearer " ++ t)

/-! ## Lua auth gate: startup error-page loading -/

/-- Final values of the three response-body globals after the startup
block. A value of none models a Lua nil global. -/
structure ErrorPages where
  body401 : Option String
  body403 : Option String
  body404 : Option String
deriving DecidableEq, Repr

/-- The normalization step `if (B == nil or B == '') then B = '' end`. -/
def normalizeBody (b : Option String) : Option String :=
  if b = none ∨ b = some "" then some "" else b

/-- Embeds the error-page loading block (part_000 lines 11-39) in the
configured case (AUTH_ERROR_PAGE_DIR_PATH set). getFile models
common.get_file_content (none = unreadable). Line 33 of the source
assigns the 404 file's content to BODY_403_ERROR_RESPONSE, and the
404 block's normalization tests and sets BODY_404_ERROR_RESPONSE,
which no line ever assigned file content to. -/
def loadErrorPages (dir : String) (getFile : String → Option String) : ErrorPages :=
  let b401 := normalizeBody (getFile (dir ++ "/401.html"))
  -- The 403 file is read and normalized, but the resulting value is dead:
  -- the 404 block overwrites the same global before it is ever served.
  let _ := normalizeBody (getFile (dir ++ "/403.html"))
  let b403 := getFile (dir ++ "/404.html")
  let b404 := normalizeBody none
  { body401 := b401, body403 := b403, body404 := b404 }

/-! ## Go controller: certificate store and records -/

/-- A Go byte slice as it comes out of a map[string][]byte lookup: either
the nil slice or a concrete (possibly empty, non-nil) slice. -/
inductive GoBytes where
  | goNil
  | goBytes (b : List Nat)
deriving DecidableEq, Repr

def GoBytes.isNil : GoBytes → Bool
  | .goNil => true
  | .goBytes _ => false

def GoBytes.toList : GoBytes → List Nat
  | .goNil => []
  | .goBytes b => b

/-- Go two-valued map lookup: the value for a present key, the zero value
(nil slice) for an absent one. -/
def mapLookup (v : Option GoBytes) : GoBytes := v.getD .goNil

/-- Modelled from the spec: the ingress.SSLCert certificate record
(pkg/ingress is not part of the excerpt). Spec §3 lists its attributes:
raw certificate bytes, raw key bytes (optional), raw CA bytes (optional),
derived common name, base-PEM artifact path, full-chain artifact path
(empty until computed), owning namespace and name. Absent byte material
is the empty list. -/
structure SSLCert where
  certBytes : List Nat
  keyBytes : List Nat
  caBytes : List Nat
  CN : String
  PemFileName : String
  FullChainPemFileName : String
  Namespace : String
  Name : String
deriving DecidableEq, Repr

/-- Modelled from the spec: SSLCert.Equal (pkg/ingress, not in the
excerpt) is content equality with the raw cert bytes compared (§4.1
reconciliation rule). -/
def SSLCert.Equal (a b : SSLCert) : Bool :=
  a.certBytes == b.certBytes

/-- Spec §3: a record with both certificate and key material is a TLS
record. -/
def SSLCert.isTLSRecord (s : SSLCert) : Prop :=
  s.certBytes ≠ [] ∧ s.keyBytes ≠ []

/-- Spec §3: a record with only CA material is an auth-only record. -/
def SSLCert.isAuthOnlyRecord (s : SSLCert) : Prop :=
  s.certBytes = [] ∧ s.keyBytes = [] ∧ s.caBytes ≠ []

/-- The sslCertTracker: a keyed mapping from secret identifier to record
(cache.ThreadSafeStore), modelled as an association list. -/
abbrev Store := List (String × SSLCert)

/-- tracker.Get. -/
def Store.get : Store → String → Option SSLCert
  | [], _ => none
  | p :: rest, k => if p.1 = k then some p.2 else Store.get rest k

/-- Both tracker.Add and tracker.Update store the object under the key
(cache.ThreadSafeStore implements both as the same map assignment:
replace the entry when the key exists, insert it otherwise). -/
def Store.set : Store → String → SSLCert → Store
  | [], k, c => [(k, c)]
  | p :: rest, k, c => if p.1 = k then (k, c) :: rest else p :: Store.set rest k c

/-- tracker.ListKeys. -/
def Store.keys (st : Store) : List String :=
  st.map (fun p => p.1)

theorem Store.get_set_self (st : Store) (k : String) (c : SSLCert) :
    Store.get (Store.set st k c) k = some c := by
  induction st with
  | nil => simp [Store.set, Store.get]
  | cons p rest ih =>
    by_cases h : p.1 = k
    · simp [Store.set, Store.get, h]
    · simp [Store.set, Store.get, h, ih]

theorem Store.get_set_other (st : Store) (k k' : String) (c : SSLCert)
    (h : k' ≠ k) : Store.get (Store.set st k c) k' = Store.get st k' := by
  have hk : ¬(k = k') := fun he => h he.symm
  induction st with
  | nil => simp [Store.set, Store.get, hk]
  | cons p rest ih =>
    by_cases hp : p.1 = k
    · simp [Store.set, Store.get, hp, hk]
    · by_cases hp' : p.1 = k'
      · simp [Store.set, Store.get, hp, hp', h]
      · simp [Store.set, Store.get, hp, hp', ih]

/-! ## Go controller: deriving records from secrets (getPemCertificate) -/

/-- A Kubernetes secret as consumed by getPemCertificate: the Data map
entries for tls.crt / tls.key / ca.crt (none = key absent from the map,
matching Go's two-valued lookup) plus object Name and Namespace. -/
structure GoSecret where
  DataCrt : Option GoBytes
  DataKey : Option GoBytes
  DataCa : Option GoBytes
  Name : String
  Namespace : String
deriving DecidableEq, Repr

/-- External collaborators of the controller: the secret lister
(ic.listers.Secret.GetByName; none = error), and oracles for the two
pkg/net/ssl helpers, which are not part of the excerpt and are modelled
from the spec. parseCN abstracts certificate parsing inside
AddOrUpdateCertAndKey (the derived common name, or none on failure);
caOk abstracts failure of AddCertAuth; sslDir is the helpers' on-disk
directory for base PEM artifacts. -/
structure ControllerEnv where
  getByName : String → Option GoSecret
  parseCN : List Nat → Option String
  caOk : List Nat → Bool
  sslDir : String

/-- Modelled from the spec: ssl.AddOrUpdateCertAndKey (pkg/net/ssl, not in
the excerpt) builds a keypair record from cert and key with the CA bytes,
if present, attached as an auxiliary trust anchor (spec §4.1); it derives
the common name and the base PEM path and fails when the certificate
cannot be parsed. The full-chain path starts empty (spec §3). -/
def AddOrUpdateCertAndKey (env : ControllerEnv) (name : String)
    (cert key ca : GoBytes) : Option SSLCert :=
  match env.parseCN cert.toList with
  | none => none
  | some cn =>
    some { certBytes := cert.toList, keyBytes := key.toList, caBytes := ca.toList,
           CN := cn, PemFileName := env.sslDir ++ "/" ++ name ++ ".pem",
           FullChainPemFileName := "", Namespace := "", Name := "" }

/-- Modelled from the spec: ssl.AddCertAuth (pkg/net/ssl, not in the
excerpt) builds a CA-only record (spec §4.1: certificate or key missing
but CA bytes present builds an auth-only record). -/
def AddCertAuth (env : ControllerEnv) (name : String) (ca : GoBytes) : Option SSLCert :=
  if env.caOk ca.toList then
    some { certBytes := [], keyBytes := [], caBytes := ca.toList, CN := "",
           PemFileName := env.sslDir ++ "/" ++ name ++ ".pem",
           FullChainPemFileName := "", Namespace := "", Name := "" }
  else none

/-- strings.Replace(secretName, "/", "-", -1). -/
def nsSecNameOf (secretName : String) : String :=
  String.mk (secretName.data.map (fun c => if c = '/' then '-' else c))

example : nsSecNameOf "ns/web-tls" = "ns-web-tls" := by decide

deriving instance DecidableEq for Except

/-- The error cases of getPemCertificate, one per return fmt.Errorf site
(backend_ssl.go lines 79, 92, 95, 102/114, 122). -/
inductive PemError where
  | retrieveError
  | noTlsCrt
  | noTlsKey
  | pemCreateError
  | noKeypairOrCA
deriving DecidableEq, Repr

/-- Embeds getPemCertificate (backend_ssl.go lines 76-128). okcert/okkey
are the two-valued map lookups; the keypair branch requires both map keys
present and both values non-nil; otherwise a non-nil ca.crt value gives a
CA-only record; otherwise the lookup fails. On success Name and Namespace
are copied from the secret object. -/
def getPemCertificate (env : ControllerEnv) (secretName : String) :
    Except PemError SSLCert :=
  match env.getByName secretName with
  | none => .error .retrieveError
  | some secret =>
    let cert := mapLookup secret.DataCrt
    let okcert := secret.DataCrt.isSome
    let key := mapLookup secret.DataKey
    let okkey := secret.DataKey.isSome
    let ca := mapLookup secret.DataCa
    let nsSecName := nsSecNameOf secretName
    if okcert && okkey then
      if cert.isNil then .error .noTlsCrt
      else if key.isNil then .error .noTlsKey
      else
        match AddOrUpdateCertAndKey env nsSecName cert key ca with
        | none => .error .pemCreateError
        | some s => .ok { s with Name := secret.Name, Namespace := secret.Namespace }
    else if !ca.isNil then
      match AddCertAuth env nsSecName ca with
      | none => .error .pemCreateError
      | some s => .ok { s with Name := secret.Name, Namespace := secret.Namespace }
    else
      .error .noKeypairOrCA

/-! ## Go controller: the Synchronizer (syncSecret) -/

/-- Controller state touched by syncSecret: the certificate store and the
number of reconfiguration signals enqueued on syncQueue so far. -/
structure SyncState where
  store : Store
  queue : Nat
deriving DecidableEq, Repr

/-- Embeds syncSecret (backend_ssl.go lines 42-72): derivation failure
returns without mutating anything; an existing content-equal record
returns without mutating anything; otherwise the record is stored
(Update when present, Add when absent — both are Store.set) and exactly
one signal is enqueued. -/
def syncSecret (env : ControllerEnv) (st : SyncState) (key : String) : SyncState :=
  match getPemCertificate env key with
  | .error _ => st
  | .ok cert =>
    match Store.get st.store key with
    | some cur =>
      if cur.Equal cert then st
      else { store := Store.set st.store key cert, queue := st.queue + 1 }
    | none => { store := Store.set st.store key cert, queue := st.queue + 1 }

/-! ## Go controller: the Chain Completion Job (checkSSLChainIssues) -/

/-- External collaborators of the chain job: ssl.FullChainCert (pkg/net/ssl,
not in the excerpt; none = resolution error), the outcome of
ioutil.WriteFile for a given path and contents, and
ingress.DefaultSSLDirectory. Modelled from the spec (§4.2, §6). -/
structure ChainEnv where
  fullChainCert : String → Option (List Nat)
  writeOk : String → List Nat → Bool
  dir : String

/-- State threaded through the chain-completion sweep: the store, the
signal count, the log of files successfully written, and the number of
chain resolutions attempted. -/
structure JobState where
  store : Store
  queue : Nat
  writes : List (String × List Nat)
  resolveAttempts : Nat
deriving DecidableEq, Repr

/-- fmt.Sprintf("%v/%v-%v-full-chain.pem", dir, namespace, name). -/
def fullChainPath (dir ns name : String) : String :=
  dir ++ "/" ++ ns ++ "-" ++ name ++ "-full-chain.pem"

/-- One iteration of the loop in checkSSLChainIssues (backend_ssl.go lines
131-168): skip records whose full-chain path is already set; otherwise
resolve the chain (failure: continue), write the derived file (failure:
continue), and replace the stored record by a full copy of the old one
(the mergo.MergeWithOverwrite of the source, which cannot fail on these
struct pointers) with only the full-chain path changed, enqueueing one
signal. -/
def chainStep (env : ChainEnv) (st : JobState) (secretName : String) : JobState :=
  match Store.get st.store secretName with
  | none => st
  | some secret =>
    if secret.FullChainPemFileName ≠ "" then st
    else
      match env.fullChainCert secret.PemFileName with
      | none => { st with resolveAttempts := st.resolveAttempts + 1 }
      | some data =>
        let p := fullChainPath env.dir secret.Namespace secret.Name
        if env.writeOk p data then
          { store := Store.set st.store secretName { secret with FullChainPemFileName := p },
            queue := st.queue + 1,
            writes := st.writes ++ [(p, data)],
            resolveAttempts := st.resolveAttempts + 1 }
        else
          { st with resolveAttempts := st.resolveAttempts + 1 }

/-- Embeds checkSSLChainIssues (backend_ssl.go lines 130-169): iterate the
key list taken from the tracker at loop entry. -/
def checkSSLChainIssues (env : ChainEnv) (st : JobState) : JobState :=
  (Store.keys st.store).foldl (chainStep env) st

/-! ## Go controller: the Missing-Secret Reconciler (checkMissingSecrets) -/

/-- One ingress object as consumed by checkMissingSecrets: whether
class.IsValid accepts it, its namespace, the SecretName of each entry of
Spec.TLS, and the auth-tls-secret annotation value as returned by
parser.GetStringAnnotation ("" when absent). class.IsValid and the
annotation lookup live outside the excerpt and are modelled as fields. -/
structure IngressRule where
  classValid : Bool
  Namespace : String
  tlsSecretNames : List String
  authTlsSecret : String
deriving DecidableEq, Repr

/-- Reconciler state: the store and queue acted on through syncSecret,
plus the trace of identifiers syncSecret was invoked for. -/
structure ReconState where
  store : Store
  queue : Nat
  syncCalls : List String
deriving DecidableEq, Repr

/-- ic.syncSecret(key) as invoked from checkMissingSecrets, recording the
invocation. -/
def syncSecretTraced (env : ControllerEnv) (st : ReconState) (key : String) : ReconState :=
  let c := syncSecret env { store := st.store, queue := st.queue } key
  { store := c.store, queue := c.queue, syncCalls := st.syncCalls ++ [key] }

/-- The per-TLS-reference body (backend_ssl.go lines 182-191): skip empty
secret names, build the namespace/secretName identifier, sync only when
the identifier is absent from the store. -/
def checkTLSRef (env : ControllerEnv) (ns : String) (st : ReconState)
    (secretName : String) : ReconState :=
  if secretName = "" then st
  else
    let key := ns ++ "/" ++ secretName
    match Store.get st.store key with
    | some _ => st
    | none => syncSecretTraced env st key

/-- The per-ingress body (backend_ssl.go lines 176-200): skip objects of
the wrong class, walk the TLS references, then check the auth-tls-secret
annotation identifier the same way. -/
def checkIngressRule (env : ControllerEnv) (st : ReconState)
    (ing : IngressRule) : ReconState :=
  if !ing.classValid then st
  else
    let st1 := ing.tlsSecretNames.foldl (checkTLSRef env ing.Namespace) st
    if ing.authTlsSecret = "" then st1
    else
      match Store.get st1.store ing.authTlsSecret with
      | some _ => st1
      | none => syncSecretTraced env st1 ing.authTlsSecret

/-- Embeds checkMissingSecrets (backend_ssl.go lines 174-202). -/
def checkMissingSecrets (env : ControllerEnv) (ings : List IngressRule)
    (st : ReconState) : ReconState :=
  ings.foldl (checkIngressRule env) st

/-! ## Helper lemmas about the validators -/

theorem validate_access_token_eq (req : Request) (env : HttpEnv) :
    validate_access_token_or_exit req env =
      (match req.authHeader with
       | some h => accessFinish env false none (bearerMatch h)
       | none =>
         accessFinish env true
           ((req.cookies "cfc-acs-auth-cookie").map (fun t => "Bearer " ++ t))
           (req.cookies "cfc-acs-auth-cookie")) := by
  unfold validate_access_token_or_exit
  rfl

theorem validate_access_outcome (req : Request) (env : HttpEnv) :
    (validate_access_token_or_exit req env).outcome =
      accessOutcomeOf env ((validate_access_token_or_exit req env).token) := by
  unfold validate_access_token_or_exit
  cases req.authHeader <;> rfl

theorem validate_access_networkCalled (req : Request) (env : HttpEnv) :
    (validate_access_token_or_exit req env).networkCalled =
      ((validate_access_token_or_exit req env).token).isSome := by
  unfold validate_access_token_or_exit
  cases req.authHeader <;> rfl

theorem policyOutcomeOf_permitted_iff (env : HttpEnv) :
    policyOutcomeOf env = PolicyOutcome.permitted ↔
      ∃ x, env.resp = some (some x) ∧ x ≠ "" ∧
        env.decode x = DecodeResult.obj (some "Permit") := by
  unfold policyOutcomeOf
  cases henv : env.resp with
  | none => simp
  | some b =>
    cases b with
    | none => simp
    | some x =>
      by_cases hx : x = ""
      · subst hx; simp
      · simp only [if_neg hx]
        cases hd : env.decode x with
        | err => simp [hx, hd]
        | obj decision =>
          by_cases hp : decision = some "Permit"
          · subst hp; simp [hx, hd]
          · simp [hx, hd, hp]

/-! ## Claim theorems: request-time gate -/

/-- C5: a request carrying an Authorization header of the form
Bearer token has that token extracted and used by both
validate_id_token_or_exit and validate_access_token_or_exit, with the
cookie jar never consulted; the cookie (cfc-acs-info-cookie resp.
cfc-acs-auth-cookie) is consulted only when no Authorization header is
present, in which case the token is the cookie value and a
"Bearer token" Authorization header is synthesized from it. -/
theorem credential_precedence (req : Request) (env : HttpEnv) (h tok v : String) :
    (req.authHeader = some h → bearerMatch h = some tok →
      (validate_id_token_or_exit req).token = some tok
      ∧ (validate_id_token_or_exit req).cookieConsulted = false
      ∧ (validate_access_token_or_exit req env).token = some tok
      ∧ (validate_access_token_or_exit req env).cookieConsulted = false)
    ∧ (req.authHeader = none → req.cookies "cfc-acs-info-cookie" = some v →
      (validate_id_token_or_exit req).token = some v
      ∧ (validate_id_token_or_exit req).headerSet = some ("Bearer " ++ v)
      ∧ (validate_id_token_or_exit req).cookieConsulted = true)
    ∧ (req.authHeader = none → req.cookies "cfc-acs-auth-cookie" = some v →
      (validate_access_token_or_exit req env).token = some v
      ∧ (validate_access_token_or_exit req env).headerSet = some ("Bearer " ++ v)
      ∧ (validate_access_token_or_exit req env).cookieConsulted = true) := by
  refine ⟨?_, ?_, ?_⟩
  · intro ha hb
    simp [validate_id_token_or_exit, validate_access_token_or_exit, accessFinish, ha, hb]
  · intro ha hc
    simp [validate_id_token_or_exit, ha, hc]
  · intro ha hc
    simp [validate_access_token_or_exit, accessFinish, ha, hc]

/-- Witness for C5 at a concrete request carrying both a well-formed
Bearer header and cookies. -/
theorem credential_precedence_witness :
    (validate_id_token_or_exit ⟨some "Bearer abc", fun _ => some "ck"⟩).token = some "abc"
    ∧ (validate_id_token_or_exit ⟨some "Bearer abc", fun _ => some "ck"⟩).cookieConsulted = false
    ∧ (validate_access_token_or_exit ⟨some "Bearer abc", fun _ => some "ck"⟩
        ⟨none, fun _ => DecodeResult.err⟩).token = some "abc"
    ∧ (validate_access_token_or_exit ⟨some "Bearer abc", fun _ => some "ck"⟩
        ⟨none, fun _ => DecodeResult.err⟩).cookieConsulted = false :=
  (credential_precedence ⟨some "Bearer abc", fun _ => some "ck"⟩
    ⟨none, fun _ => DecodeResult.err⟩ "Bearer abc" "abc" "ck").1 rfl (by decide)

/-- C10: an Authorization header that is present but does not match the
Bearer pattern makes both validators deny with 401 without consulting the
session cookie and without any network call: the mere presence of the
header disables the cookie fallback. -/
theorem malformed_auth_header_denies (req : Request) (env : HttpEnv) (h : String)
    (ha : req.authHeader = some h) (hb : bearerMatch h = none) :
    (validate_id_token_or_exit req).outcome = SimpleOutcome.exit401
    ∧ (validate_id_token_or_exit req).cookieConsulted = false
    ∧ (validate_access_token_or_exit req env).outcome = AccessOutcome.exit401
    ∧ (validate_access_token_or_exit req env).cookieConsulted = false
    ∧ (validate_access_token_or_exit req env).networkCalled = false := by
  simp [validate_id_token_or_exit, validate_access_token_or_exit, accessFinish,
    accessOutcomeOf, ha, hb]

/-- Witness for C10: header "Basic abc" is present but not Bearer-shaped,
and a recognized cookie is present yet ignored. -/
theorem malformed_auth_header_denies_witness :
    (validate_id_token_or_exit ⟨some "Basic abc", fun _ => some "ck"⟩).outcome
        = SimpleOutcome.exit401
    ∧ (validate_id_token_or_exit ⟨some "Basic abc", fun _ => some "ck"⟩).cookieConsulted = false
    ∧ (validate_access_token_or_exit ⟨some "Basic abc", fun _ => some "ck"⟩
        ⟨none, fun _ => DecodeResult.err⟩).outcome = AccessOutcome.exit401
    ∧ (validate_access_token_or_exit ⟨some "Basic abc", fun _ => some "ck"⟩
        ⟨none, fun _ => DecodeResult.err⟩).cookieConsulted = false
    ∧ (validate_access_token_or_exit ⟨some "Basic abc", fun _ => some "ck"⟩
        ⟨none, fun _ => DecodeResult.err⟩).networkCalled = false :=
  malformed_auth_header_denies ⟨some "Basic abc", fun _ => some "ck"⟩
    ⟨none, fun _ => DecodeResult.err⟩ "Basic abc" rfl (by decide)

/-- C9: in the configured startup error-page block, the 404 file's content
is assigned to the 403 body variable (source line 33), so the served 404
body is always the empty string regardless of any configured page, and
the 403 body is whatever the 404 file held — the configured 403.html
content is dead and the two error responses never serve independently
configured bodies. -/
theorem error_pages_aliasing (dir : String) (getFile : String → Option String) :
    (loadErrorPages dir getFile).body404 = some ""
    ∧ (loadErrorPages dir getFile).body403 = getFile (dir ++ "/404.html")
    ∧ (loadErrorPages dir getFile).body401
        = normalizeBody (getFile (dir ++ "/401.html")) := by
  refine ⟨?_, rfl, rfl⟩
  simp [loadErrorPages, normalizeBody]

/-- C4 counterexample: with a valid bearer token and a PDP-style exchange
whose JSON response lacks the sub field, validate_access_token_or_exit
does not deny with 401 — it returns a nil subject. -/
theorem access_missing_sub_counterexample :
    (validate_access_token_or_exit ⟨some "Bearer t", fun _ => none⟩
        ⟨some (some "noSubHere"), fun _ => DecodeResult.obj none⟩).outcome
      = AccessOutcome.ret none
    ∧ (validate_access_token_or_exit ⟨some "Bearer t", fun _ => none⟩
        ⟨some (some "noSubHere"), fun _ => DecodeResult.obj none⟩).outcome
      ≠ AccessOutcome.exit401 := by
  decide

/-- C4 (amended): validate_access_token_or_exit denies with 401 when no
token could be extracted (and then makes no network call), when the
outbound userInfo request fails, and when the response body is empty or
absent; but when the JSON body lacks the sub field it returns a nil
subject without denying; on a body carrying sub it returns that subject.
(A malformed body makes cjson.decode raise rather than deny.) -/
theorem validate_access_token_amended (req : Request) (env : HttpEnv) (t : String) :
    ((validate_access_token_or_exit req env).token = none →
      (validate_access_token_or_exit req env).outcome = AccessOutcome.exit401
      ∧ (validate_access_token_or_exit req env).networkCalled = false)
    ∧ ((validate_access_token_or_exit req env).token = some t → env.resp = none →
      (validate_access_token_or_exit req env).outcome = AccessOutcome.exit401)
    ∧ ((validate_access_token_or_exit req env).token = some t → env.resp = some none →
      (validate_access_token_or_exit req env).outcome = AccessOutcome.exit401)
    ∧ ((validate_access_token_or_exit req env).token = some t →
        env.resp = some (some "") →
      (validate_access_token_or_exit req env).outcome = AccessOutcome.exit401)
    ∧ (∀ x sub, (validate_access_token_or_exit req env).token = some t →
        env.resp = some (some x) → x ≠ "" → env.decode x = DecodeResult.obj sub →
      (validate_access_token_or_exit req env).outcome = AccessOutcome.ret sub)
    ∧ (∀ x, (validate_access_token_or_exit req env).token = some t →
        env.resp = some (some x) → x ≠ "" → env.decode x = DecodeResult.err →
      (validate_access_token_or_exit req env).outcome = AccessOutcome.luaError) := by
  refine ⟨?_, ?_, ?_, ?_, ?_, ?_⟩
  · intro htok
    rw [validate_access_outcome, validate_access_networkCalled, htok]
    exact ⟨rfl, rfl⟩
  · intro htok hr
    rw [validate_access_outcome, htok]
    simp [accessOutcomeOf, hr]
  · intro htok hr
    rw [validate_access_outcome, htok]
    simp [accessOutcomeOf, hr]
  · intro htok hr
    rw [validate_access_outcome, htok]
    simp [accessOutcomeOf, hr]
  · intro x sub htok hr hx hd
    rw [validate_access_outcome, htok]
    simp [accessOutcomeOf, hr, hx, hd]
  · intro x htok hr hx hd
    rw [validate_access_outcome, htok]
    simp [accessOutcomeOf, hr, hx, hd]

/-- Witness for C4 (amended): a concrete successful exchange returns the
response's subject. -/
theorem validate_access_token_amended_witness :
    (validate_access_token_or_exit ⟨some "Bearer t", fun _ => none⟩
        ⟨some (some "okBody"), fun _ => DecodeResult.obj (some "user1")⟩).outcome
      = AccessOutcome.ret (some "user1") :=
  (validate_access_token_amended ⟨some "Bearer t", fun _ => none⟩
      ⟨some (some "okBody"), fun _ => DecodeResult.obj (some "user1")⟩ "t").2.2.2.2.1
    "okBody" (some "user1") (by decide) rfl (by decide) rfl

/-- C1 counterexample: with a bearer credential present and the PDP
responding with a non-empty malformed (non-JSON) body, the policy check
does not produce the 403 denial — cjson.decode raises an uncaught Lua
error instead. -/
theorem policy_malformed_counterexample :
    (validate_policy_or_exit ⟨some "Bearer t", fun _ => none⟩
        ⟨some (some "notJson"), fun _ => DecodeResult.err⟩).outcome
      = PolicyOutcome.luaError
    ∧ (validate_policy_or_exit ⟨some "Bearer t", fun _ => none⟩
        ⟨some (some "notJson"), fun _ => DecodeResult.err⟩).outcome
      ≠ PolicyOutcome.exit403 := by
  decide

/-- C1 (amended): with no credential from either the Authorization header
or the policy cookie, validate_policy_or_exit denies 403 immediately with
no network call; with a credential, the request proceeds iff the PDP
response has a decision field exactly "Permit"; transport failure, an
empty or absent body, and a decodable body whose decision is absent or
differs from "Permit" all yield the 403 denial; a malformed (non-JSON)
payload instead raises an uncaught decode error (still no access, but not
the 403 path). -/
theorem validate_policy_amended (req : Request) (env : HttpEnv) :
    (req.authHeader = none → req.cookies "cfc-access-token-cookie" = none →
      validate_policy_or_exit req env
        = { networkCalled := false, sentAuth := none, outcome := PolicyOutcome.exit403 })
    ∧ (¬(req.authHeader = none ∧ req.cookies "cfc-access-token-cookie" = none) →
      ((validate_policy_or_exit req env).networkCalled = true
      ∧ ((validate_policy_or_exit req env).outcome = PolicyOutcome.permitted ↔
          ∃ x, env.resp = some (some x) ∧ x ≠ "" ∧
            env.decode x = DecodeResult.obj (some "Permit"))
      ∧ (env.resp = none →
          (validate_policy_or_exit req env).outcome = PolicyOutcome.exit403)
      ∧ (env.resp = some none →
          (validate_policy_or_exit req env).outcome = PolicyOutcome.exit403)
      ∧ (env.resp = some (some "") →
          (validate_policy_or_exit req env).outcome = PolicyOutcome.exit403)
      ∧ (∀ x d, env.resp = some (some x) → x ≠ "" →
          env.decode x = DecodeResult.obj d → d ≠ some "Permit" →
          (validate_policy_or_exit req env).outcome = PolicyOutcome.exit403)
      ∧ (∀ x, env.resp = some (some x) → x ≠ "" → env.decode x = DecodeResult.err →
          (validate_policy_or_exit req env).outcome = PolicyOutcome.luaError))) := by
  constructor
  · intro ha hc
    unfold validate_policy_or_exit
    rw [ha, hc]
  · intro hcred
    have hcall : ∃ a, validate_policy_or_exit req env = policyCall env a := by
      unfold validate_policy_or_exit
      cases ha : req.authHeader with
      | some a => exact ⟨a, by cases req.cookies "cfc-access-token-cookie" <;> rfl⟩
      | none =>
        cases hc : req.cookies "cfc-access-token-cookie" with
        | some tk => exact ⟨"bearer " ++ tk, rfl⟩
        | none => exact absurd ⟨ha, hc⟩ hcred
    obtain ⟨a, ha⟩ := hcall
    rw [ha]
    refine ⟨rfl, ?_, ?_, ?_, ?_, ?_, ?_⟩
    · exact policyOutcomeOf_permitted_iff env
    · intro hr; simp [policyCall, policyOutcomeOf, hr]
    · intro hr; simp [policyCall, policyOutcomeOf, hr]
    · intro hr; simp [policyCall, policyOutcomeOf, hr]
    · intro x d hr hx hd hdp; simp [policyCall, policyOutcomeOf, hr, hx, hd, hdp]
    · intro x hr hx hd; simp [policyCall, policyOutcomeOf, hr, hx, hd]

/-- Witness for C1 (amended): a concrete Permit decision proceeds, via the
permitted-iff direction of the amended theorem. -/
theorem validate_policy_amended_witness :
    (validate_policy_or_exit ⟨some "Bearer t", fun _ => none⟩
        ⟨some (some "okBody"), fun _ => DecodeResult.obj (some "Permit")⟩).outcome
      = PolicyOutcome.permitted :=
  ((validate_policy_amended ⟨some "Bearer t", fun _ => none⟩
      ⟨some (some "okBody"), fun _ => DecodeResult.obj (some "Permit")⟩).2
    (by decide)).2.1.mpr ⟨"okBody", rfl, by decide, rfl⟩

/-! ## Claim theorems: certificate controller -/

theorem SSLCert.Equal_refl (c : SSLCert) : SSLCert.Equal c c = true := by
  simp [SSLCert.Equal]

/-- C2: syncSecret is idempotent for an unchanged secret (a second call in
a row is a no-op), a single call enqueues at most one signal (so two calls
mutate the store at most once and enqueue at most one signal), and when
the freshly derived record is content-equal to the stored one the call
performs no store mutation and emits no signal at all. -/
theorem syncSecret_idempotent (env : ControllerEnv) (st : SyncState) (key : String) :
    syncSecret env (syncSecret env st key) key = syncSecret env st key
    ∧ (syncSecret env st key).queue ≤ st.queue + 1
    ∧ (syncSecret env (syncSecret env st key) key).queue ≤ st.queue + 1
    ∧ (∀ cert cur, getPemCertificate env key = Except.ok cert →
        Store.get st.store key = some cur → SSLCert.Equal cur cert = true →
        syncSecret env st key = st) := by
  have hidem : syncSecret env (syncSecret env st key) key = syncSecret env st key := by
    unfold syncSecret
    cases hg : getPemCertificate env key with
    | error e => rfl
    | ok cert =>
      cases hc : Store.get st.store key with
      | some cur =>
        by_cases he : SSLCert.Equal cur cert
        · simp [hc, he]
        · simp [hc, he, Store.get_set_self, SSLCert.Equal_refl]
      | none => simp [hc, Store.get_set_self, SSLCert.Equal_refl]
  have hq : (syncSecret env st key).queue ≤ st.queue + 1 := by
    unfold syncSecret
    cases hg : getPemCertificate env key with
    | error e => exact Nat.le_succ st.queue
    | ok cert =>
      cases hc : Store.get st.store key with
      | some cur =>
        by_cases he : SSLCert.Equal cur cert
        · simp [hc, he]
        · simp [hc, he]
      | none => simp [hc]
  refine ⟨hidem, hq, by rw [hidem]; exact hq, ?_⟩
  intro cert cur hg hc he
  unfold syncSecret
  rw [hg, hc]
  simp [he]

/-- A concrete secret, environment and derived record for the
ns/web-tls scenario. -/
def sampleSecret : GoSecret :=
  { DataCrt := some (GoBytes.goBytes [1]), DataKey := some (GoBytes.goBytes [2]),
    DataCa := none, Name := "web-tls", Namespace := "ns" }

def sampleEnv : ControllerEnv :=
  { getByName := fun k => if k = "ns/web-tls" then some sampleSecret else none,
    parseCN := fun _ => some "cn", caOk := fun _ => true, sslDir := "/ssl" }

def sampleCert : SSLCert :=
  { certBytes := [1], keyBytes := [2], caBytes := [], CN := "cn",
    PemFileName := "/ssl/ns-web-tls.pem", FullChainPemFileName := "",
    Namespace := "ns", Name := "web-tls" }

example : getPemCertificate sampleEnv "ns/web-tls" = Except.ok sampleCert := by decide

/-- Witness for C2: with sampleCert already stored under ns/web-tls and
the secret unchanged, syncSecret leaves the state untouched. -/
theorem syncSecret_idempotent_witness :
    syncSecret sampleEnv ⟨[("ns/web-tls", sampleCert)], 5⟩ "ns/web-tls"
      = ⟨[("ns/web-tls", sampleCert)], 5⟩ :=
  (syncSecret_idempotent sampleEnv ⟨[("ns/web-tls", sampleCert)], 5⟩ "ns/web-tls").2.2.2
    sampleCert sampleCert (by decide) (by decide) (by decide)

/-- C3 counterexample: a secret with tls.crt present, tls.key absent and
ca.crt present does not fail at all — getPemCertificate yields an
auth-only record, and syncSecret mutates the store. The source has no
"malformed keypair" error site (and the cert-without-key / key-without-cert
no-CA failures use the "no keypair or CA cert" error). -/
theorem single_keypair_half_counterexample :
    (getPemCertificate
        ⟨fun k => if k = "ns/s"
            then some ⟨some (GoBytes.goBytes [1]), none, some (GoBytes.goBytes [2]), "s", "ns"⟩
            else none,
          fun _ => some "cn", fun _ => true, "/ssl"⟩ "ns/s"
      = Except.ok ⟨[], [], [2], "", "/ssl/ns-s.pem", "", "ns", "s"⟩)
    ∧ syncSecret
        ⟨fun k => if k = "ns/s"
            then some ⟨some (GoBytes.goBytes [1]), none, some (GoBytes.goBytes [2]), "s", "ns"⟩
            else none,
          fun _ => some "cn", fun _ => true, "/ssl"⟩ ⟨[], 0⟩ "ns/s"
      = ⟨[("ns/s", ⟨[], [], [2], "", "/ssl/ns-s.pem", "", "ns", "s"⟩)], 1⟩ := by
  decide

/-- C3 (amended): classification of getPemCertificate. cert+key+ca yields
a TLS record with the CA attached as auxiliary trust material; ca-only
yields an auth-only record; neither cert+key nor CA fails with the
no-keypair-or-CA error; a payload with exactly one of cert and key fails
with that same error only when no CA is present — with a CA present it
instead succeeds as an auth-only record; and every derivation failure
leaves the syncSecret state untouched. -/
theorem getPemCertificate_classification (env : ControllerEnv) (st : SyncState)
    (n : String) (secret : GoSecret) (cb kb ab : List Nat) (cn : String)
    (hn : env.getByName n = some secret) :
    (secret.DataCrt = some (GoBytes.goBytes cb) →
      secret.DataKey = some (GoBytes.goBytes kb) →
      secret.DataCa = some (GoBytes.goBytes ab) →
      cb ≠ [] → kb ≠ [] → env.parseCN cb = some cn →
      getPemCertificate env n = Except.ok
        { certBytes := cb, keyBytes := kb, caBytes := ab, CN := cn,
          PemFileName := env.sslDir ++ "/" ++ nsSecNameOf n ++ ".pem",
          FullChainPemFileName := "", Namespace := secret.Namespace, Name := secret.Name }
      ∧ SSLCert.isTLSRecord
          { certBytes := cb, keyBytes := kb, caBytes := ab, CN := cn,
            PemFileName := env.sslDir ++ "/" ++ nsSecNameOf n ++ ".pem",
            FullChainPemFileName := "", Namespace := secret.Namespace, Name := secret.Name })
    ∧ (secret.DataCrt = none → secret.DataKey = none →
      secret.DataCa = some (GoBytes.goBytes ab) → ab ≠ [] → env.caOk ab = true →
      ∃ s, getPemCertificate env n = Except.ok s ∧ SSLCert.isAuthOnlyRecord s
        ∧ s.caBytes = ab)
    ∧ (secret.DataCrt = none → secret.DataKey = none → secret.DataCa = none →
      getPemCertificate env n = Except.error PemError.noKeypairOrCA)
    ∧ (secret.DataCrt = some (GoBytes.goBytes cb) → secret.DataKey = none →
      secret.DataCa = none →
      getPemCertificate env n = Except.error PemError.noKeypairOrCA)
    ∧ (secret.DataCrt = none → secret.DataKey = some (GoBytes.goBytes kb) →
      secret.DataCa = none →
      getPemCertificate env n = Except.error PemError.noKeypairOrCA)
    ∧ (secret.DataCrt = some (GoBytes.goBytes cb) → secret.DataKey = none →
      secret.DataCa = some (GoBytes.goBytes ab) → ab ≠ [] → env.caOk ab = true →
      ∃ s, getPemCertificate env n = Except.ok s ∧ SSLCert.isAuthOnlyRecord s)
    ∧ (secret.DataCrt = none → secret.DataKey = some (GoBytes.goBytes kb) →
      secret.DataCa = some (GoBytes.goBytes ab) → ab ≠ [] → env.caOk ab = true →
      ∃ s, getPemCertificate env n = Except.ok s ∧ SSLCert.isAuthOnlyRecord s)
    ∧ (∀ e, getPemCertificate env n = Except.error e → syncSecret env st n = st) := by
  refine ⟨?_, ?_, ?_, ?_, ?_, ?_, ?_, ?_⟩
  · intro hcrt hkey hca hcb hkb hcn
    constructor
    · unfold getPemCertificate
      rw [hn]
      simp [hcrt, hkey, hca, mapLookup, GoBytes.isNil, GoBytes.toList,
        AddOrUpdateCertAndKey, hcn]
    · exact ⟨hcb, hkb⟩
  · intro hcrt hkey hca hab hok
    refine Exists.intro
      { certBytes := [], keyBytes := [], caBytes := ab, CN := "",
        PemFileName := env.sslDir ++ "/" ++ nsSecNameOf n ++ ".pem",
        FullChainPemFileName := "", Namespace := secret.Namespace,
        Name := secret.Name }
      ⟨?_, ⟨rfl, rfl, hab⟩, rfl⟩
    unfold getPemCertificate
    rw [hn]
    simp [hcrt, hkey, hca, mapLookup, GoBytes.isNil, GoBytes.toList, AddCertAuth, hok]
  · intro hcrt hkey hca
    unfold getPemCertificate
    rw [hn]
    simp [hcrt, hkey, hca, mapLookup, GoBytes.isNil]
  · intro hcrt hkey hca
    unfold getPemCertificate
    rw [hn]
    simp [hcrt, hkey, hca, mapLookup, GoBytes.isNil]
  · intro hcrt hkey hca
    unfold getPemCertificate
    rw [hn]
    simp [hcrt, hkey, hca, mapLookup, GoBytes.isNil]
  · intro hcrt hkey hca hab hok
    refine Exists.intro
      { certBytes := [], keyBytes := [], caBytes := ab, CN := "",
        PemFileName := env.sslDir ++ "/" ++ nsSecNameOf n ++ ".pem",
        FullChainPemFileName := "", Namespace := secret.Namespace,
        Name := secret.Name }
      ⟨?_, ⟨rfl, rfl, hab⟩⟩
    unfold getPemCertificate
    rw [hn]
    simp [hcrt, hkey, hca, mapLookup, GoBytes.isNil, GoBytes.toList, AddCertAuth, hok]
  · intro hcrt hkey hca hab hok
    refine Exists.intro
      { certBytes := [], keyBytes := [], caBytes := ab, CN := "",
        PemFileName := env.sslDir ++ "/" ++ nsSecNameOf n ++ ".pem",
        FullChainPemFileName := "", Namespace := secret.Namespace,
        Name := secret.Name }
      ⟨?_, ⟨rfl, rfl, hab⟩⟩
    unfold getPemCertificate
    rw [hn]
    simp [hcrt, hkey, hca, mapLookup, GoBytes.isNil, GoBytes.toList, AddCertAuth, hok]
  · intro e he
    unfold syncSecret
    rw [he]

/-- A cert+key+ca secret and environment for the C3 witness. -/
def sampleSecretCA : GoSecret :=
  { DataCrt := some (GoBytes.goBytes [1]), DataKey := some (GoBytes.goBytes [2]),
    DataCa := some (GoBytes.goBytes [3]), Name := "web-tls", Namespace := "ns" }

def sampleEnvCA : ControllerEnv :=
  { getByName := fun k => if k = "ns/web-tls" then some sampleSecretCA else none,
    parseCN := fun _ => some "cn", caOk := fun _ => true, sslDir := "/ssl" }

/-- Witness for C3 (amended): the cert+key+ca case. -/
theorem getPemCertificate_classification_witness :
    getPemCertificate sampleEnvCA "ns/web-tls" = Except.ok
      { certBytes := [1], keyBytes := [2], caBytes := [3], CN := "cn",
        PemFileName := sampleEnvCA.sslDir ++ "/" ++ nsSecNameOf "ns/web-tls" ++ ".pem",
        FullChainPemFileName := "", Namespace := sampleSecretCA.Namespace,
        Name := sampleSecretCA.Name }
    ∧ SSLCert.isTLSRecord
      { certBytes := [1], keyBytes := [2], caBytes := [3], CN := "cn",
        PemFileName := sampleEnvCA.sslDir ++ "/" ++ nsSecNameOf "ns/web-tls" ++ ".pem",
        FullChainPemFileName := "", Namespace := sampleSecretCA.Namespace,
        Name := sampleSecretCA.Name } :=
  (getPemCertificate_classification sampleEnvCA ⟨[], 0⟩ "ns/web-tls" sampleSecretCA
    [1] [2] [3] "cn" (by decide)).1 rfl rfl rfl (by decide) (by decide) rfl

/-- Any single chain-job iteration leaves a completed record (non-empty
full-chain path) exactly as it is, whatever key the iteration visits. -/
theorem chainStep_preserves_complete (env : ChainEnv) (st : JobState) (k' key : String)
    (secret : SSLCert) (hget : Store.get st.store key = some secret)
    (hfc : secret.FullChainPemFileName ≠ "") :
    Store.get (chainStep env st k').store key = some secret := by
  unfold chainStep
  cases hg : Store.get st.store k' with
  | none => exact hget
  | some sec =>
    by_cases hb : sec.FullChainPemFileName ≠ ""
    · simp only [if_pos hb]
      exact hget
    · simp only [if_neg hb]
      cases hf : env.fullChainCert sec.PemFileName with
      | none => exact hget
      | some data =>
        by_cases hw : env.writeOk (fullChainPath env.dir sec.Namespace sec.Name) data
        · have hne : key ≠ k' := by
            intro he
            subst he
            rw [hget] at hg
            injection hg with h2
            subst h2
            exact hb hfc
          simp only [if_pos hw]
          rw [Store.get_set_other st.store k' key _ hne]
          exact hget
        · simp only [if_neg hw]
          exact hget

theorem foldl_chainStep_preserves (env : ChainEnv) (key : String) (secret : SSLCert)
    (hfc : secret.FullChainPemFileName ≠ "") :
    ∀ (ks : List String) (st : JobState), Store.get st.store key = some secret →
      Store.get (ks.foldl (chainStep env) st).store key = some secret := by
  intro ks
  induction ks with
  | nil => intro st h; exact h
  | cons k' rest ih =>
    intro st h
    exact ih (chainStep env st k') (chainStep_preserves_complete env st k' key secret h hfc)

/-- C6: the Chain Completion Job skips any record whose full-chain path is
already non-empty: the iteration visiting that key is a complete no-op
(no store mutation, no signal, no file write, no chain resolution), and a
whole sweep leaves the record unchanged in the store. -/
theorem chain_job_skips_completed (env : ChainEnv) (st : JobState) (key : String)
    (secret : SSLCert) (hget : Store.get st.store key = some secret)
    (hfc : secret.FullChainPemFileName ≠ "") :
    chainStep env st key = st
    ∧ Store.get (checkSSLChainIssues env st).store key = some secret := by
  constructor
  · unfold chainStep
    rw [hget]
    simp only [if_pos hfc]
  · exact foldl_chainStep_preserves env key secret hfc (Store.keys st.store) st hget

/-- A completed record and job state for the C6 witness. -/
def doneCert : SSLCert :=
  { certBytes := [1], keyBytes := [2], caBytes := [], CN := "cn",
    PemFileName := "/ssl/ns-done.pem", FullChainPemFileName := "/ssl/ns-done-full-chain.pem",
    Namespace := "ns", Name := "done" }

def chainEnvSample : ChainEnv :=
  { fullChainCert := fun _ => some [9], writeOk := fun _ _ => true, dir := "/ssl" }

/-- Witness for C6: a sweep over a store holding one completed record
changes nothing about it. -/
theorem chain_job_skips_completed_witness :
    chainStep chainEnvSample ⟨[("ns/done", doneCert)], 3, [], 0⟩ "ns/done"
        = ⟨[("ns/done", doneCert)], 3, [], 0⟩
    ∧ Store.get (checkSSLChainIssues chainEnvSample
        ⟨[("ns/done", doneCert)], 3, [], 0⟩).store "ns/done" = some doneCert :=
  chain_job_skips_completed chainEnvSample ⟨[("ns/done", doneCert)], 3, [], 0⟩
    "ns/done" doneCert (by decide) (by decide)

/-- C7: when the chain job processes an incomplete record, a successful
resolution and write replaces the store entry by a record identical to the
old one in every field except the full-chain path, set to
dir/namespace-name-full-chain.pem, and enqueues exactly one signal; on
resolution failure or write failure the store and the signal queue are
untouched and no file is recorded as written. -/
theorem chain_completion_effects (env : ChainEnv) (st : JobState) (key : String)
    (secret : SSLCert) (data : List Nat)
    (hget : Store.get st.store key = some secret)
    (hfc : secret.FullChainPemFileName = "") :
    (env.fullChainCert secret.PemFileName = some data →
      env.writeOk (fullChainPath env.dir secret.Namespace secret.Name) data = true →
      chainStep env st key =
        { store := Store.set st.store key
            { secret with
              FullChainPemFileName := fullChainPath env.dir secret.Namespace secret.Name },
          queue := st.queue + 1,
          writes := st.writes
            ++ [(fullChainPath env.dir secret.Namespace secret.Name, data)],
          resolveAttempts := st.resolveAttempts + 1 })
    ∧ (env.fullChainCert secret.PemFileName = some data →
      env.writeOk (fullChainPath env.dir secret.Namespace secret.Name) data = false →
      (chainStep env st key).store = st.store ∧ (chainStep env st key).queue = st.queue
      ∧ (chainStep env st key).writes = st.writes)
    ∧ (env.fullChainCert secret.PemFileName = none →
      (chainStep env st key).store = st.store ∧ (chainStep env st key).queue = st.queue
      ∧ (chainStep env st key).writes = st.writes) := by
  refine ⟨?_, ?_, ?_⟩
  · intro hf hw
    unfold chainStep
    rw [hget]
    simp [hfc, hf, hw]
  · intro hf hw
    unfold chainStep
    rw [hget]
    simp [hfc, hf, hw]
  · intro hf
    unfold chainStep
    rw [hget]
    simp [hfc, hf]

/-- An incomplete record for the C7 witness. -/
def pendingCert : SSLCert :=
  { certBytes := [1], keyBytes := [2], caBytes := [], CN := "cn",
    PemFileName := "/ssl/ns-web.pem", FullChainPemFileName := "",
    Namespace := "ns", Name := "web" }

/-- Witness for C7: a concrete successful completion writes
/ssl/ns-web-full-chain.pem, replaces only the full-chain path, and
enqueues one signal. -/
theorem chain_completion_effects_witness :
    chainStep chainEnvSample ⟨[("ns/web", pendingCert)], 0, [], 0⟩ "ns/web"
      = ⟨[("ns/web",
            { certBytes := [1], keyBytes := [2], caBytes := [], CN := "cn",
              PemFileName := "/ssl/ns-web.pem",
              FullChainPemFileName := "/ssl/ns-web-full-chain.pem",
              Namespace := "ns", Name := "web" })],
          1, [("/ssl/ns-web-full-chain.pem", [9])], 1⟩ := by
  rw [(chain_completion_effects chainEnvSample ⟨[("ns/web", pendingCert)], 0, [], 0⟩
    "ns/web" pendingCert [9] (by decide) rfl).1 rfl rfl]
  decide

/-- syncSecret never changes entries stored under other keys. -/
theorem syncSecret_get_other (env : ControllerEnv) (s : SyncState) (key k : String)
    (h : k ≠ key) : Store.get (syncSecret env s key).store k = Store.get s.store k := by
  unfold syncSecret
  cases hg : getPemCertificate env key with
  | error e => rfl
  | ok cert =>
    cases hc : Store.get s.store key with
    | some cur =>
      by_cases he : SSLCert.Equal cur cert
      · simp [he]
      · simp [he, Store.get_set_other _ _ _ _ h]
    | none => simp [Store.get_set_other _ _ _ _ h]

/-- The invariant preserved across the reconciler: a stored entry stays
stored with the same value, and no Synchronizer invocation is recorded
for its identifier. -/
def ReconInv (key : String) (c : SSLCert) (st : ReconState) : Prop :=
  Store.get st.store key = some c ∧ key ∉ st.syncCalls

theorem syncSecretTraced_inv (env : ControllerEnv) (st : ReconState) (k' key : String)
    (c : SSLCert) (hinv : ReconInv key c st)
    (habsent : Store.get st.store k' = none) :
    ReconInv key c (syncSecretTraced env st k') := by
  obtain ⟨hget, hcalls⟩ := hinv
  have hne : key ≠ k' := by
    intro he
    rw [he, habsent] at hget
    exact Option.noConfusion hget
  constructor
  · unfold syncSecretTraced
    rw [syncSecret_get_other env _ k' key hne]
    exact hget
  · unfold syncSecretTraced
    simp only [List.mem_append, List.mem_singleton]
    exact fun hmem => hmem.elim hcalls hne

theorem checkTLSRef_inv (env : ControllerEnv) (ns : String) (key : String)
    (c : SSLCert) (st : ReconState) (sn : String) (hinv : ReconInv key c st) :
    ReconInv key c (checkTLSRef env ns st sn) := by
  unfold checkTLSRef
  by_cases hsn : sn = ""
  · simp only [if_pos hsn]
    exact hinv
  · simp only [if_neg hsn]
    cases hg : Store.get st.store (ns ++ "/" ++ sn) with
    | some cur => exact hinv
    | none => exact syncSecretTraced_inv env st (ns ++ "/" ++ sn) key c hinv hg

theorem foldl_checkTLSRef_inv (env : ControllerEnv) (ns : String) (key : String)
    (c : SSLCert) :
    ∀ (sns : List String) (st : ReconState), ReconInv key c st →
      ReconInv key c (sns.foldl (checkTLSRef env ns) st) := by
  intro sns
  induction sns with
  | nil => intro st h; exact h
  | cons sn rest ih =>
    intro st h
    exact ih (checkTLSRef env ns st sn) (checkTLSRef_inv env ns key c st sn h)

theorem checkIngressRule_inv (env : ControllerEnv) (key : String) (c : SSLCert)
    (st : ReconState) (ing : IngressRule) (hinv : ReconInv key c st) :
    ReconInv key c (checkIngressRule env st ing) := by
  unfold checkIngressRule
  by_cases hcl : !ing.classValid
  · simp only [if_pos hcl]
    exact hinv
  · simp only [if_neg hcl]
    have h1 := foldl_checkTLSRef_inv env ing.Namespace key c ing.tlsSecretNames st hinv
    by_cases han : ing.authTlsSecret = ""
    · simp only [if_pos han]
      exact h1
    · simp only [if_neg han]
      cases hg : Store.get (ing.tlsSecretNames.foldl (checkTLSRef env ing.Namespace) st).store
          ing.authTlsSecret with
      | some cur => exact h1
      | none => exact syncSecretTraced_inv env _ ing.authTlsSecret key c h1 hg

/-- C8: the Missing-Secret Reconciler syncs only identifiers absent from
the Certificate Store: an identifier already stored when the run starts is
never passed to the Synchronizer during the run (so a rerun after a prior
successful sync performs zero additional invocations for it), and the
reconciler never removes or rewrites stored entries — the entry survives
the run unchanged. -/
theorem missing_secret_reconciler (env : ControllerEnv) (ings : List IngressRule)
    (st : ReconState) (key : String) (c : SSLCert)
    (hget : Store.get st.store key = some c) (hcalls : key ∉ st.syncCalls) :
    Store.get (checkMissingSecrets env ings st).store key = some c
    ∧ key ∉ (checkMissingSecrets env ings st).syncCalls := by
  have hinv : ReconInv key c st := ⟨hget, hcalls⟩
  unfold checkMissingSecrets
  induction ings generalizing st with
  | nil => exact hinv
  | cons ing rest ih =>
    exact ih (checkIngressRule env st ing)
      (checkIngressRule_inv env key c st ing hinv).1
      (checkIngressRule_inv env key c st ing hinv).2
      (checkIngressRule_inv env key c st ing hinv)

/-- Witness for C8: rerunning the reconciler over an ingress referencing
ns/web-tls after that identifier is already stored performs no sync call
for it and leaves the entry intact. -/
theorem missing_secret_reconciler_witness :
    Store.get (checkMissingSecrets sampleEnv [⟨true, "ns", ["web-tls"], ""⟩]
        ⟨[("ns/web-tls", sampleCert)], 1, []⟩).store "ns/web-tls" = some sampleCert
    ∧ "ns/web-tls" ∉ (checkMissingSecrets sampleEnv [⟨true, "ns", ["web-tls"], ""⟩]
        ⟨[("ns/web-tls", sampleCert)], 1, []⟩).syncCalls :=
  missing_secret_reconciler sampleEnv [⟨true, "ns", ["web-tls"], ""⟩]
    ⟨[("ns/web-tls", sampleCert)], 1, []⟩ "ns/web-tls" sampleCert (by decide) (by decide)
